import Mathlib

/-!
Verification of the connect4 protocol/state core (src/gui_plugin.rs,
src/nostr_plugin.rs, src/main.rs).

Shallow embedding conventions:
* `usize` counters and player numbers become `Nat`; board scanning
  coordinates become `Int` so the four axis directions can step
  negatively.
* Public keys (nostr identities) are abstracted to `Nat`; equality of
  identities is all the source uses.
* The wire payload `NetworkMessage` is embedded as an inductive; the
  serde codec is external, so an inbound payload is modelled as
  `Option NetworkMessage` (`none` = a string that fails to decode).
* Bevy ECS side effects that are purely visual (sprite spawning,
  textures, transforms) are dropped, except that the list of spawned
  `CoinMove` payloads is tracked (`NetState.spawned`) so that "no state
  change" claims can mention it.
-/

/-- Modelled from the spec: `PlayerMove` lives in src/resources.rs, which is
absent from src/ (only `mod resources;` and its callers are present).
Spec §3: player 1|2, column 0..6, row = count of existing moves in that
column at creation time. -/
structure PlayerMove where
  player : Nat
  column : Nat
  row : Nat
deriving DecidableEq

/-- Board state, from spec §3 (the struct itself is in the absent
src/resources.rs): append-only move list, turn pointer, optional winner,
in-progress flag. All four fields are read/written by src/gui_plugin.rs
and src/nostr_plugin.rs exactly as modelled below. -/
structure Board where
  moves : List PlayerMove
  player_turn : Nat
  winner : Option Nat
  in_progress : Bool
deriving DecidableEq

/-- Modelled from the spec: `Board::new` is in the absent src/resources.rs.
Spec §8 fixes the initial turn ("Player1 moving first"); a fresh board has
no moves, no winner and no drop in flight. -/
def Board.new : Board := ⟨[], 1, none, false⟩

/-- Players record exchanged during matchmaking (spec §3; struct in the
absent src/messages.rs): optional display names and the two identities. -/
structure Players where
  p1_name : Option String
  p2_name : Option String
  p1_pubkey : Nat
  p2_pubkey : Nat
deriving DecidableEq

/-- Wire payload (spec §6; enum in the absent src/messages.rs). The four
variants are the ones constructed/matched across src/gui_plugin.rs
(`NetworkMessage::Input`, `NetworkMessage::Replay`) and
src/nostr_plugin.rs (`NewGame`, `JoinGame`, `Input`). -/
inductive NetworkMessage where
  | Input : Nat → NetworkMessage
  | JoinGame : Players → NetworkMessage
  | NewGame : Option String → NetworkMessage
  | Replay : NetworkMessage
deriving DecidableEq

/-- Session state touched by src/nostr_plugin.rs (`GameState` is in the
absent src/resources.rs): role (`player_type`, 0 = unassigned per spec §3
role Unassigned), the `start` role-assignment guard, the peer display
name, plus the local identity and display name (from `nostr_keys` /
`local_ln_address`). -/
structure GameState where
  player_type : Nat
  start : Bool
  p2_ln_address : Option String
  local_pub : Nat
  local_ln_address : Option String
deriving DecidableEq

/-- Modelled from the spec: `GameState::new` is in the absent
src/resources.rs. Spec §3: role starts Unassigned; role assignment is
guarded by the `started` flag, so `start` begins false. -/
def GameState.new (pub : Nat) (name : Option String) : GameState :=
  ⟨0, false, none, pub, name⟩

/-- Combined state mutated by `handle_net_msg` (src/nostr_plugin.rs
286-385): the board resource, the game-state resource, and the list of
`CoinMove` payloads spawned into the ECS. -/
structure NetState where
  board : Board
  game : GameState
  spawned : List PlayerMove
deriving DecidableEq

/-- Turn flip, src/gui_plugin.rs 372 and src/nostr_plugin.rs 342:
`if board.player_turn == 1 { 2 } else { 1 }`. -/
def flipTurn (t : Nat) : Nat := if t = 1 then 2 else 1

/-- Modelled from the spec: cell occupancy. `PlayerMove::is_winner` lives
in the absent src/resources.rs; spec §4.3 speaks of "contiguous cells of
the same player", so a cell (c, r) is player `p`'s iff some move in the
list occupies it with that player. -/
def cellIs (moves : List PlayerMove) (p : Nat) (c r : Int) : Bool :=
  moves.any fun m => ((m.column : Int) == c) && ((m.row : Int) == r) && (m.player == p)

/-- Modelled from the spec (§4.3): number of contiguous cells of player
`p` strictly beyond (c, r) in direction (dc, dr), fuel-bounded: 7 steps
cover the widest board axis. -/
def countDir (moves : List PlayerMove) (p : Nat) (c r dc dr : Int) : Nat → Nat
  | 0 => 0
  | k + 1 =>
    if cellIs moves p (c + dc) (r + dr) then
      1 + countDir moves p (c + dc) (r + dr) dc dr k
    else 0

/-- Modelled from the spec (§4.3): total contiguous cells of the move's
player along one axis, "counting contiguous cells of the same player
including the move itself in both directions along that axis". -/
def axisCount (moves : List PlayerMove) (m : PlayerMove) (dc dr : Int) : Nat :=
  countDir moves m.player m.column m.row dc dr 7 +
    countDir moves m.player m.column m.row (-dc) (-dr) 7 + 1

/-- Modelled from the spec: `PlayerMove::is_winner` (absent
src/resources.rs). Spec §4.3: scan the four axes — horizontal, vertical,
diagonal up-right, diagonal down-right — and report a win when any axis
total reaches 4. -/
def PlayerMove.is_winner (m : PlayerMove) (moves : List PlayerMove) : Bool :=
  [((1 : Int), (0 : Int)), (0, 1), (1, 1), (1, -1)].any fun d =>
    decide (4 ≤ axisCount moves m d.1 d.2)

/-- Win detector, src/gui_plugin.rs 435-437:
`moves.iter().any(|move_| move_.is_winner(moves))`. -/
def has_winning_move (moves : List PlayerMove) : Bool :=
  moves.any fun m => m.is_winner moves

/-- Number of moves already in column `c`, the expression
`board.moves.iter().filter(|m| m.column == c).count()` of
src/gui_plugin.rs 278 and src/nostr_plugin.rs 298. -/
def colCount (b : Board) (c : Nat) : Nat :=
  (b.moves.filter fun m => m.column == c).length

/-- Logical core of the local-move path of `place`, src/gui_plugin.rs
250-335, with the hover/press hit-test abstracted into the call itself:
the push branch runs only under `board.winner.is_none()` (251), not
`board.in_progress` (270-272), `board.player_turn == send_net_msg.local_player`
(273), and `row_pos <= 5` (279); it then appends
`PlayerMove::new(board.player_turn, column, row_pos)` and enqueues
`NetworkMessage::Input(column)` outbound (281-294). No turn flip happens
here. Returns the new board and the outbound messages enqueued. -/
def submitLocalMove (local_player : Nat) (b : Board) (column : Nat) :
    Board × List NetworkMessage :=
  if b.winner = none then
    if b.in_progress then (b, [])
    else if b.player_turn = local_player then
      let row_pos := (b.moves.filter fun m => m.column == column).length
      if row_pos ≤ 5 then
        ({ b with moves := b.moves ++ [⟨b.player_turn, column, row_pos⟩] },
          [NetworkMessage.Input column])
      else (b, [])
    else (b, [])
  else (b, [])

/-- `check_win`, src/gui_plugin.rs 382-386: if `has_winning_move` holds of
the full move list, set `winner = board.player_turn` (unguarded). -/
def check_win (b : Board) : Board :=
  if has_winning_move b.moves then { b with winner := some b.player_turn } else b

/-- Settle step of `move_coin`, src/gui_plugin.rs 364-374: when the coin
reaches its target and `!coin.reached_target`, run `check_win`, clear
`in_progress`, and flip `player_turn` — the flip is unconditional, it is
not guarded by the win check. -/
def settleMove (b : Board) : Board :=
  let b1 := check_win b
  { b1 with in_progress := false, player_turn := flipTurn b1.player_turn }

/-- One decoded message through the `match network_message` of
`handle_net_msg`, src/nostr_plugin.rs 296-377. Returns the new state and
whether the arm executed `break` (only the accepted `Input` arm does,
line 344). The source match has arms for `Input`, `JoinGame` and
`NewGame` only; it contains no arm for `Replay`, so a received `Replay`
is modelled as leaving every piece of state unchanged. -/
def handleMsg (s : NetState) : NetworkMessage → NetState × Bool
  | NetworkMessage.Input new_input =>
    let row_pos := (s.board.moves.filter fun m => m.column == new_input).length
    if row_pos ≤ 5 then
      let player_move : PlayerMove := ⟨s.board.player_turn, new_input, row_pos⟩
      ({ s with
          board := { s.board with
            moves := s.board.moves ++ [player_move],
            player_turn := flipTurn s.board.player_turn },
          spawned := s.spawned ++ [player_move] }, true)
    else (s, false)
  | NetworkMessage.JoinGame players =>
    if s.game.local_pub ≠ players.p1_pubkey ∧ s.game.local_pub ≠ players.p2_pubkey then
      ({ s with game := { s.game with player_type := 3 } }, false)
    else if s.game.start then (s, false)
    else
      ({ s with game := { s.game with
          p2_ln_address := players.p2_name, player_type := 1, start := true } }, false)
  | NetworkMessage.NewGame player1 =>
    if s.game.start then (s, false)
    else
      ({ s with game := { s.game with
          p2_ln_address := player1, player_type := 2, start := true } }, false)
  | NetworkMessage.Replay => (s, false)

/-- One raw inbound payload through `handle_net_msg`, src/nostr_plugin.rs
295-382: the `Ok` arm dispatches on the decoded message; the `Err` arm
(379-381) only logs and changes nothing. -/
def handleRaw (s : NetState) : Option NetworkMessage → NetState × Bool
  | none => (s, false)
  | some m => handleMsg s m

/-- One frame tick of `handle_net_msg`'s `while let Ok(Some(message))`
loop, src/nostr_plugin.rs 294-383: messages are drained in order until
the queue empties or an accepted `Input` breaks; unconsumed messages stay
queued for the next tick. Returns the state and the remaining queue. -/
def drainTick (s : NetState) : List (Option NetworkMessage) →
    NetState × List (Option NetworkMessage)
  | [] => (s, [])
  | m :: rest =>
    let r := handleRaw s m
    if r.2 then (r.1, rest) else drainTick r.1 rest

/-- Repeated ticks, fuel-bounded (each nonempty tick consumes at least
one message, so `q.length` ticks always suffice). -/
def runTicksFuel : Nat → NetState → List (Option NetworkMessage) → NetState
  | 0, s, _ => s
  | _ + 1, s, [] => s
  | f + 1, s, m :: rest =>
    let r := drainTick s (m :: rest)
    runTicksFuel f r.1 r.2

/-- Cumulative effect of running `handle_net_msg` ticks until the inbound
queue is fully consumed. -/
def runTicks (s : NetState) (q : List (Option NetworkMessage)) : NetState :=
  runTicksFuel q.length s q

/-- Sequential fold of the handler over a message list; proved below to
agree with `runTicks` (the `break` only defers work to the next tick). -/
def processInbound (s : NetState) (q : List (Option NetworkMessage)) : NetState :=
  q.foldl (fun s m => (handleRaw s m).1) s

/-- A relay event as the matchmaking code sees it: author pubkey plus its
content after a decode attempt (spec §4.1; src/nostr_plugin.rs uses
`nostr_sdk::Event`, reading only `.pubkey` and `.content`). -/
structure NostrEvent where
  pubkey : Nat
  content : Option NetworkMessage
deriving DecidableEq

/-- Content classification used by the backlog forwarding loop,
src/nostr_plugin.rs 207/213: `event.content.contains("NewGame")`. The raw
substring test on serialized JSON is modelled as the variant test on the
decoded content (spec §9 records this identification). -/
def isNewGameMsg : Option NetworkMessage → Bool
  | some (NetworkMessage.NewGame _) => true
  | _ => false

/-- Content classification for `event.content.contains("JoinGame")`,
src/nostr_plugin.rs 207/226. -/
def isJoinGameMsg : Option NetworkMessage → Bool
  | some (NetworkMessage.JoinGame _) => true
  | _ => false

/-- A backlog entry that decodes as either matchmaking variant. -/
def matchmakingMsg (o : Option NetworkMessage) : Bool :=
  isNewGameMsg o || isJoinGameMsg o

/-- Matchmaking decision of `setup`, src/nostr_plugin.rs 130-204, as the
list of outbound protocol messages it enqueues. The backlog is oldest →
newest (the source reverses the fetched events, line 126, and inspects
`events.last()`): empty backlog publishes `NewGame` with the local
display name if present else `None` (178-204); a last entry decoding as
`NewGame(player)` authored by a different pubkey publishes
`JoinGame(Players::new(player, local name, author, local))` (130-169);
a self-authored or differently-decoding last entry publishes nothing
(170-177). -/
def setupOutbound (localPub : Nat) (localName : Option String)
    (backlog : List NostrEvent) : List NetworkMessage :=
  match backlog.getLast? with
  | none =>
    if localName.isNone then [NetworkMessage.NewGame none]
    else [NetworkMessage.NewGame localName]
  | some last_event =>
    match last_event.content with
    | some (NetworkMessage.NewGame player) =>
      if last_event.pubkey ≠ localPub then
        let players : Players :=
          if localName.isNone then ⟨player, none, last_event.pubkey, localPub⟩
          else ⟨player, localName, last_event.pubkey, localPub⟩
        [NetworkMessage.JoinGame players]
      else []
    | _ => []

/-- Backlog replay of `setup`, src/nostr_plugin.rs 206-246: every fetched
event is forwarded (its content pushed onto the inbound queue) except
self-authored matchmaking entries
(`(contains NewGame || contains JoinGame) && pubkey == local`, 207-212);
the re-subscription narrowing (214-236) touches only the relay filter,
no game state. -/
def setupForwarded (localPub : Nat) (backlog : List NostrEvent) :
    List (Option NetworkMessage) :=
  (backlog.filter fun e =>
    !((isNewGameMsg e.content || isJoinGameMsg e.content) && (e.pubkey == localPub))).map
    (fun e => e.content)

/-- Live notification filter of `setup`, src/nostr_plugin.rs 248-281: an
event is forwarded to the inbound queue iff `event.pubkey !=
nostr_keys.public_key()` (255); self-authored live events are dropped
before enqueueing. Returns the enqueued payload, or `none` when dropped. -/
def forwardLive (localPub : Nat) (e : NostrEvent) : Option (Option NetworkMessage) :=
  if e.pubkey ≠ localPub then some e.content else none

/-! ### Helper lemmas -/

theorem perm_any_eq {α : Type} {l₁ l₂ : List α} (h : l₁.Perm l₂) (f : α → Bool) :
    l₁.any f = l₂.any f := by
  cases hb : l₂.any f
  · rw [List.any_eq_false] at hb ⊢
    intro x hx
    exact hb x (h.mem_iff.mp hx)
  · rw [List.any_eq_true] at hb ⊢
    obtain ⟨x, hx, hfx⟩ := hb
    exact ⟨x, h.mem_iff.mpr hx, hfx⟩

theorem cellIs_perm {l₁ l₂ : List PlayerMove} (h : l₁.Perm l₂) (p : Nat) (c r : Int) :
    cellIs l₁ p c r = cellIs l₂ p c r :=
  perm_any_eq h _

theorem countDir_perm {l₁ l₂ : List PlayerMove} (h : l₁.Perm l₂) (p : Nat) (dc dr : Int) :
    ∀ (k : Nat) (c r : Int), countDir l₁ p c r dc dr k = countDir l₂ p c r dc dr k := by
  intro k
  induction k with
  | zero => intro c r; rfl
  | succ k ih =>
    intro c r
    simp only [countDir, cellIs_perm h, ih]

theorem isWinner_perm {l₁ l₂ : List PlayerMove} (h : l₁.Perm l₂) (m : PlayerMove) :
    m.is_winner l₁ = m.is_winner l₂ := by
  simp only [PlayerMove.is_winner, axisCount, countDir_perm h]

theorem has_winning_move_perm {l₁ l₂ : List PlayerMove} (h : l₁.Perm l₂) :
    has_winning_move l₁ = has_winning_move l₂ := by
  unfold has_winning_move
  have hf : (fun m : PlayerMove => m.is_winner l₁) = fun m : PlayerMove => m.is_winner l₂ :=
    funext fun m => isWinner_perm h m
  rw [hf]
  exact perm_any_eq h _

/-! ### Claims -/

/-- C1: `has_winning_move` returns true iff some move in the list has, along
one of the four axes (horizontal, vertical, diagonal up-right, diagonal
down-right), at least 4 contiguous same-player cells counting the move
itself and contiguous same-player cells in both directions; it is a pure
function of the move list (a total Lean function by construction) and its
result is invariant under reordering of the moves. -/
theorem c1_win_detector_axes_and_order (l l' : List PlayerMove) (h : l.Perm l') :
    (has_winning_move l = true ↔
      ∃ m ∈ l, ∃ d ∈ [((1 : Int), (0 : Int)), (0, 1), (1, 1), (1, -1)],
        4 ≤ axisCount l m d.1 d.2) ∧
    has_winning_move l = has_winning_move l' := by
  constructor
  · simp [has_winning_move, PlayerMove.is_winner, List.any_eq_true]
  · exact has_winning_move_perm h

/-- Witness for C1 at the spec §8 example: four Player-1 moves on row 0 in
columns 0..3 form a horizontal win, and swapping the first two moves does
not change the detector's verdict. -/
theorem c1_witness :
    has_winning_move [⟨1, 0, 0⟩, ⟨1, 1, 0⟩, ⟨1, 2, 0⟩, ⟨1, 3, 0⟩] = true ∧
    ((has_winning_move [⟨1, 0, 0⟩, ⟨1, 1, 0⟩, ⟨1, 2, 0⟩, ⟨1, 3, 0⟩] = true ↔
      ∃ m ∈ [(⟨1, 0, 0⟩ : PlayerMove), ⟨1, 1, 0⟩, ⟨1, 2, 0⟩, ⟨1, 3, 0⟩],
        ∃ d ∈ [((1 : Int), (0 : Int)), (0, 1), (1, 1), (1, -1)],
          4 ≤ axisCount [⟨1, 0, 0⟩, ⟨1, 1, 0⟩, ⟨1, 2, 0⟩, ⟨1, 3, 0⟩] m d.1 d.2) ∧
      has_winning_move [⟨1, 0, 0⟩, ⟨1, 1, 0⟩, ⟨1, 2, 0⟩, ⟨1, 3, 0⟩] =
        has_winning_move [⟨1, 1, 0⟩, ⟨1, 0, 0⟩, ⟨1, 2, 0⟩, ⟨1, 3, 0⟩]) :=
  ⟨by decide,
    c1_win_detector_axes_and_order _ _
      (List.Perm.swap (⟨1, 1, 0⟩ : PlayerMove) (⟨1, 0, 0⟩ : PlayerMove)
        [⟨1, 2, 0⟩, ⟨1, 3, 0⟩])⟩


theorem colCount_moves_append (b b' : Board) (mv : PlayerMove)
    (hm : b'.moves = b.moves ++ [mv]) (c : Nat) :
    colCount b' c = colCount b c + (if mv.column = c then 1 else 0) := by
  simp only [colCount, hm, List.filter_append, List.length_append, List.filter_cons]
  by_cases hc : mv.column = c <;> simp [hc]

/-- C2: a column never exceeds 6 moves. A `submit_local_move` on a column
already holding 6 (or more) moves is a no-op: board unchanged, no
outbound message. A remote `MoveInput` on such a column likewise changes
nothing (board, game state and spawned coins all unchanged, no `break`).
Moreover the 6-per-column bound is an invariant: it holds of the fresh
board and is preserved by local submission, by every inbound message, and
by the settle step. -/
theorem c2_column_capacity :
    (∀ lp b c, 6 ≤ colCount b c → submitLocalMove lp b c = (b, [])) ∧
    (∀ s c, 6 ≤ colCount s.board c →
      handleRaw s (some (NetworkMessage.Input c)) = (s, false)) ∧
    (∀ c, colCount Board.new c = 0) ∧
    (∀ lp b c c', colCount b c' ≤ 6 → colCount (submitLocalMove lp b c).1 c' ≤ 6) ∧
    (∀ s o c', colCount s.board c' ≤ 6 → colCount ((handleRaw s o).1).board c' ≤ 6) ∧
    (∀ b c', colCount (settleMove b) c' = colCount b c') := by
  have hcol : ∀ (b : Board) (c : Nat),
      (b.moves.filter fun m => m.column == c).length = colCount b c := fun _ _ => rfl
  refine ⟨?_, ?_, ?_, ?_, ?_, ?_⟩
  · intro lp b c h
    unfold submitLocalMove
    dsimp only
    split
    · split
      · rfl
      · split
        · rw [if_neg (by rw [hcol]; omega)]
        · rfl
    · rfl
  · intro s c h
    simp only [handleRaw, handleMsg]
    rw [if_neg (by rw [hcol]; omega)]
  · intro c
    rfl
  · intro lp b c c' h
    unfold submitLocalMove
    dsimp only
    split
    · split
      · exact h
      · split
        · split
          · rename_i hrow
            rw [colCount_moves_append b _ ⟨b.player_turn, c,
              (b.moves.filter fun m => m.column == c).length⟩ rfl c']
            rw [hcol] at hrow
            by_cases hcc : c = c'
            · subst hcc
              rw [if_pos rfl]
              omega
            · rw [if_neg hcc]
              omega
          · exact h
        · exact h
    · exact h
  · intro s o c' h
    match o with
    | none => exact h
    | some (NetworkMessage.Input c) =>
      simp only [handleRaw, handleMsg]
      split
      · rename_i hrow
        rw [colCount_moves_append s.board _ ⟨s.board.player_turn, c,
          (s.board.moves.filter fun m => m.column == c).length⟩ rfl c']
        rw [hcol] at hrow
        by_cases hcc : c = c'
        · subst hcc
          rw [if_pos rfl]
          omega
        · rw [if_neg hcc]
          omega
      · exact h
    | some (NetworkMessage.JoinGame ps) =>
      simp only [handleRaw, handleMsg]
      split
      · exact h
      · split
        · exact h
        · exact h
    | some (NetworkMessage.NewGame p) =>
      simp only [handleRaw, handleMsg]
      split
      · exact h
      · exact h
    | some NetworkMessage.Replay => exact h
  · intro b c'
    unfold settleMove check_win
    split <;> rfl

/-- Witness for C2: on a board whose column 0 already holds six moves, the
7th local submission and a remote `MoveInput(0)` both change nothing. -/
theorem c2_witness :
    submitLocalMove 1
        ⟨[⟨1, 0, 0⟩, ⟨2, 0, 1⟩, ⟨1, 0, 2⟩, ⟨2, 0, 3⟩, ⟨1, 0, 4⟩, ⟨2, 0, 5⟩], 1, none, false⟩ 0 =
      (⟨[⟨1, 0, 0⟩, ⟨2, 0, 1⟩, ⟨1, 0, 2⟩, ⟨2, 0, 3⟩, ⟨1, 0, 4⟩, ⟨2, 0, 5⟩], 1, none, false⟩, []) ∧
    handleRaw
        ⟨⟨[⟨1, 0, 0⟩, ⟨2, 0, 1⟩, ⟨1, 0, 2⟩, ⟨2, 0, 3⟩, ⟨1, 0, 4⟩, ⟨2, 0, 5⟩], 1, none, false⟩,
          GameState.new 1 none, []⟩ (some (NetworkMessage.Input 0)) =
      (⟨⟨[⟨1, 0, 0⟩, ⟨2, 0, 1⟩, ⟨1, 0, 2⟩, ⟨2, 0, 3⟩, ⟨1, 0, 4⟩, ⟨2, 0, 5⟩], 1, none, false⟩,
          GameState.new 1 none, []⟩, false) :=
  ⟨c2_column_capacity.1 1 _ 0 (by decide),
    c2_column_capacity.2.1
      ⟨⟨[⟨1, 0, 0⟩, ⟨2, 0, 1⟩, ⟨1, 0, 2⟩, ⟨2, 0, 3⟩, ⟨1, 0, 4⟩, ⟨2, 0, 5⟩], 1, none, false⟩,
        GameState.new 1 none, []⟩ 0 (by decide)⟩

/-- C3 counterexample: with four Player-1 coins on row 0 (columns 0..3)
and the fourth drop still in flight (turn = 1, in_progress = true), the
settle step detects the win and sets `winner = Some 1` — yet it still
flips `player_turn` from 1 to 2, contradicting the claim that once the
detector reports a win "no further turn flips occur". -/
theorem c3_counterexample :
    (settleMove ⟨[⟨1, 0, 0⟩, ⟨1, 1, 0⟩, ⟨1, 2, 0⟩, ⟨1, 3, 0⟩], 1, none, true⟩).winner =
      some 1 ∧
    (settleMove ⟨[⟨1, 0, 0⟩, ⟨1, 1, 0⟩, ⟨1, 2, 0⟩, ⟨1, 3, 0⟩], 1, none, true⟩).player_turn = 2 ∧
    (settleMove ⟨[⟨1, 0, 0⟩, ⟨1, 1, 0⟩, ⟨1, 2, 0⟩, ⟨1, 3, 0⟩], 1, none, true⟩).player_turn ≠
      (⟨[⟨1, 0, 0⟩, ⟨1, 1, 0⟩, ⟨1, 2, 0⟩, ⟨1, 3, 0⟩], 1, none, true⟩ : Board).player_turn := by
  decide

/-- C3 (amended): when a dropped move settles, the win detector runs over
the full move list; if it reports a win the winner is set to the value of
`player_turn` at settle time (for a locally submitted move this is the
settled move's player, since local submission does not flip the turn);
and `player_turn` flips unconditionally at every settle, win or no win. -/
theorem c3_settle_semantics :
    (∀ b : Board,
      (settleMove b).moves = b.moves ∧
      (settleMove b).in_progress = false ∧
      (settleMove b).player_turn = flipTurn b.player_turn ∧
      (settleMove b).winner =
        (if has_winning_move b.moves then some b.player_turn else b.winner)) ∧
    (∀ lp b c, ((submitLocalMove lp b c).1).player_turn = b.player_turn) := by
  constructor
  · intro b
    unfold settleMove check_win
    split <;> exact ⟨rfl, rfl, rfl, rfl⟩
  · intro lp b c
    unfold submitLocalMove
    dsimp only
    split
    · split
      · rfl
      · split
        · split
          · rfl
          · rfl
        · rfl
    · rfl

/-- C4 (code evaluated at the failing input): from a fresh board
(`player_turn = 1`), a single accepted remote `MoveInput(3)` flips the
turn once at receipt (src/nostr_plugin.rs 342, turn becomes 2) and then
the settle step of `move_coin` flips it again (src/gui_plugin.rs 372), so
after N = 1 accepted-and-settled moves `player_turn = 1` — the claim
requires `player_turn = 2` after an odd number of accepted moves, i.e.
exactly one net flip per accepted move. -/
theorem c4_remote_move_double_flip :
    ((handleRaw ⟨Board.new, GameState.new 1 none, []⟩
        (some (NetworkMessage.Input 3))).1).board.moves = [⟨1, 3, 0⟩] ∧
    ((handleRaw ⟨Board.new, GameState.new 1 none, []⟩
        (some (NetworkMessage.Input 3))).1).board.player_turn = 2 ∧
    (settleMove ((handleRaw ⟨Board.new, GameState.new 1 none, []⟩
        (some (NetworkMessage.Input 3))).1).board).winner = none ∧
    (settleMove ((handleRaw ⟨Board.new, GameState.new 1 none, []⟩
        (some (NetworkMessage.Input 3))).1).board).player_turn = 1 := by
  decide

/-- C7 (code evaluated at the failing input): the `match` in
`handle_net_msg` (src/nostr_plugin.rs 296-377) has arms for `Input`,
`JoinGame` and `NewGame` only — no arm resets the board, although the GUI
side both sends `NetworkMessage::Replay` and clears its own board on a
replay click (src/gui_plugin.rs 200-241). Receiving the reset message
therefore changes nothing: on a finished board (moves nonempty, winner
set) the moves stay nonempty and the winner stays set, instead of the
claimed cleared board. -/
theorem c7_reset_session_unhandled :
    (∀ s : NetState, handleMsg s NetworkMessage.Replay = (s, false)) ∧
    ((handleRaw ⟨⟨[⟨1, 0, 0⟩], 2, some 1, false⟩, GameState.new 1 none, []⟩
        (some NetworkMessage.Replay)).1).board.moves = [⟨1, 0, 0⟩] ∧
    ((handleRaw ⟨⟨[⟨1, 0, 0⟩], 2, some 1, false⟩, GameState.new 1 none, []⟩
        (some NetworkMessage.Replay)).1).board.winner = some 1 ∧
    ((handleRaw ⟨⟨[⟨1, 0, 0⟩], 2, some 1, false⟩, GameState.new 1 none, []⟩
        (some NetworkMessage.Replay)).1).board ≠ Board.new :=
  ⟨fun _ => rfl, by decide, by decide, by decide⟩

/-- C9: an inbound payload that fails to decode as a `ProtocolMessage`
(the `Err` arm of src/nostr_plugin.rs 379-381, modelled as `none`) causes
no state mutation whatsoever — board, game state and spawned-coin set are
all unchanged — and no `break`; the handler is a total function, so no
panic is possible. -/
theorem c9_malformed_payload_no_mutation (s : NetState) :
    (handleRaw s none).1.board = s.board ∧
    (handleRaw s none).1.game = s.game ∧
    (handleRaw s none).1.spawned = s.spawned ∧
    (handleRaw s none).2 = false :=
  ⟨rfl, rfl, rfl, rfl⟩

/-- C10: an accepted remote `MoveInput(c)` appends a `PlayerMove` whose
player field is the value of `board.player_turn` at receipt time
(src/nostr_plugin.rs 300-301) — the handler receives only the decoded
payload, never the sender identity, and the statement holds for every
state `s`, so acceptance checks neither whose turn it is nor who sent the
message; the only self-move guard is the live-event filter of `setup`
(src/nostr_plugin.rs 255), which drops exactly the events authored by the
local pubkey before enqueueing. -/
theorem c10_remote_attribution (s : NetState) (c : Nat)
    (h : colCount s.board c ≤ 5) :
    ((handleRaw s (some (NetworkMessage.Input c))).1).board.moves =
      s.board.moves ++ [⟨s.board.player_turn, c, colCount s.board c⟩] ∧
    (∀ e : NostrEvent, e.pubkey = s.game.local_pub →
      forwardLive s.game.local_pub e = none) ∧
    (∀ e : NostrEvent, e.pubkey ≠ s.game.local_pub →
      forwardLive s.game.local_pub e = some e.content) := by
  refine ⟨?_, ?_, ?_⟩
  · have h' : (s.board.moves.filter fun m => m.column == c).length ≤ 5 := h
    simp only [handleRaw, handleMsg]
    rw [if_pos h']
    rfl
  · intro e he
    unfold forwardLive
    rw [if_neg (by simp [he])]
  · intro e he
    unfold forwardLive
    rw [if_pos he]

/-- Witness for C10: on a fresh board the accepted remote `MoveInput(2)`
is attributed to player 1 (the receipt-time turn), and the live filter
keeps a peer event while dropping a self event. -/
theorem c10_witness :
    ((handleRaw ⟨Board.new, GameState.new 1 none, []⟩
        (some (NetworkMessage.Input 2))).1).board.moves =
      Board.new.moves ++ [⟨Board.new.player_turn, 2, colCount Board.new 2⟩] ∧
    forwardLive 1 ⟨1, some NetworkMessage.Replay⟩ = none ∧
    forwardLive 1 ⟨7, some NetworkMessage.Replay⟩ = some (some NetworkMessage.Replay) :=
  ⟨(c10_remote_attribution ⟨Board.new, GameState.new 1 none, []⟩ 2 (by decide)).1,
    (c10_remote_attribution ⟨Board.new, GameState.new 1 none, []⟩ 2 (by decide)).2.1
      ⟨1, some NetworkMessage.Replay⟩ rfl,
    (c10_remote_attribution ⟨Board.new, GameState.new 1 none, []⟩ 2 (by decide)).2.2
      ⟨7, some NetworkMessage.Replay⟩ (by decide)⟩

theorem drainTick_cons (s : NetState) (m : Option NetworkMessage)
    (rest : List (Option NetworkMessage)) :
    drainTick s (m :: rest) =
      if (handleRaw s m).2 then ((handleRaw s m).1, rest)
      else drainTick (handleRaw s m).1 rest := rfl

theorem drainTick_processInbound :
    ∀ (q : List (Option NetworkMessage)) (s : NetState),
      processInbound (drainTick s q).1 (drainTick s q).2 = processInbound s q
  | [], _ => rfl
  | m :: rest, s => by
    rw [drainTick_cons]
    by_cases hb : (handleRaw s m).2 = true
    · rw [if_pos hb]
      rfl
    · rw [if_neg hb]
      exact drainTick_processInbound rest (handleRaw s m).1

theorem drainTick_length_lt :
    ∀ (m : Option NetworkMessage) (rest : List (Option NetworkMessage)) (s : NetState),
      (drainTick s (m :: rest)).2.length < (m :: rest).length
  | m, rest, s => by
    rw [drainTick_cons]
    by_cases hb : (handleRaw s m).2 = true
    · rw [if_pos hb]
      simp
    · rw [if_neg hb]
      cases rest with
      | nil => simp [drainTick]
      | cons m' rest' =>
        exact Nat.lt_succ_of_lt (drainTick_length_lt m' rest' (handleRaw s m).1)

theorem runTicksFuel_eq_processInbound :
    ∀ (f : Nat) (q : List (Option NetworkMessage)) (s : NetState), q.length ≤ f →
      runTicksFuel f s q = processInbound s q
  | 0, [], _, _ => rfl
  | 0, _ :: _, _, h => absurd h (by simp)
  | f + 1, [], _, _ => rfl
  | f + 1, m :: rest, s, h => by
    show runTicksFuel f (drainTick s (m :: rest)).1 (drainTick s (m :: rest)).2 =
      processInbound s (m :: rest)
    rw [runTicksFuel_eq_processInbound f _ _ (by
      have hlt := drainTick_length_lt m rest s
      simp only [List.length_cons] at hlt h
      omega)]
    exact drainTick_processInbound (m :: rest) s

theorem runTicks_eq_processInbound (s : NetState) (q : List (Option NetworkMessage)) :
    runTicks s q = processInbound s q :=
  runTicksFuel_eq_processInbound q.length q s le_rfl

theorem processInbound_append (s : NetState) (q1 q2 : List (Option NetworkMessage)) :
    processInbound s (q1 ++ q2) = processInbound (processInbound s q1) q2 := by
  simp [processInbound, List.foldl_append]

theorem handleRaw_game_eq (s : NetState) (o : Option NetworkMessage)
    (h : matchmakingMsg o = false) : ((handleRaw s o).1).game = s.game := by
  match o with
  | none => rfl
  | some (NetworkMessage.Input n) =>
    simp only [handleRaw, handleMsg]
    split <;> rfl
  | some NetworkMessage.Replay => rfl
  | some (NetworkMessage.NewGame p) => simp [matchmakingMsg, isNewGameMsg] at h
  | some (NetworkMessage.JoinGame ps) => simp [matchmakingMsg, isJoinGameMsg] at h

theorem processInbound_game_eq :
    ∀ (q : List (Option NetworkMessage)) (s : NetState),
      (∀ o ∈ q, matchmakingMsg o = false) → (processInbound s q).game = s.game
  | [], _, _ => rfl
  | o :: rest, s, h => by
    have h1 := handleRaw_game_eq s o (h o (by simp))
    have h2 := processInbound_game_eq rest (handleRaw s o).1
      (fun o' ho' => h o' (by simp [ho']))
    calc (processInbound s (o :: rest)).game
        = (processInbound (handleRaw s o).1 rest).game := rfl
      _ = ((handleRaw s o).1).game := h2
      _ = s.game := h1

/-- C5 counterexample: with an empty matchmaking backlog the code does
enqueue exactly one `NewGame`, but the role is NOT assigned: after setup
and after draining the (empty) forwarded backlog, `player_type` is still
0 (Unassigned), not Player1. The role-1 assignment lives only in the
`JoinGame` arm of `handle_net_msg` (src/nostr_plugin.rs 347-365); the
empty-backlog path of `setup` (178-204) publishes without assigning. -/
theorem c5_counterexample :
    setupOutbound 1 none [] = [NetworkMessage.NewGame none] ∧
    ¬ (runTicks ⟨Board.new, GameState.new 1 none, []⟩
        (setupForwarded 1 [])).game.player_type = 1 := by
  decide

/-- C5 (amended): an empty matchmaking backlog causes exactly one
`AnnounceNewGame` (carrying the local display name, or none when absent)
to be enqueued outbound and nothing to be forwarded, while the role stays
Unassigned (0); the role becomes Player1 only when an `AnnounceJoin`
naming the local identity is later processed in an unstarted session. -/
theorem c5_empty_backlog (pub : Nat) (name : Option String) (s : NetState)
    (hstart : s.game.start = false) :
    setupOutbound pub name [] = [NetworkMessage.NewGame name] ∧
    setupForwarded pub [] = [] ∧
    (runTicks ⟨Board.new, GameState.new pub name, []⟩
        (setupForwarded pub [])).game.player_type = 0 ∧
    ∀ ps : Players,
      s.game.local_pub = ps.p1_pubkey ∨ s.game.local_pub = ps.p2_pubkey →
      ((handleMsg s (NetworkMessage.JoinGame ps)).1).game.player_type = 1 := by
  refine ⟨?_, rfl, rfl, ?_⟩
  · cases name <;> rfl
  · intro ps hps
    have hcond : ¬(s.game.local_pub ≠ ps.p1_pubkey ∧ s.game.local_pub ≠ ps.p2_pubkey) := by
      rcases hps with h | h <;> simp [h]
    simp only [handleMsg]
    rw [if_neg hcond, if_neg (by simp [hstart])]

/-- Witness for C5 at pub = 1, no display name: setup publishes one
`NewGame`, and a later `JoinGame` naming identity 1 as player 2 assigns
role 1. -/
theorem c5_witness :
    setupOutbound 1 none [] = [NetworkMessage.NewGame none] ∧
    ((handleMsg ⟨Board.new, GameState.new 1 none, []⟩
        (NetworkMessage.JoinGame ⟨none, none, 5, 1⟩)).1).game.player_type = 1 :=
  ⟨(c5_empty_backlog 1 none ⟨Board.new, GameState.new 1 none, []⟩ rfl).1,
    (c5_empty_backlog 1 none ⟨Board.new, GameState.new 1 none, []⟩ rfl).2.2.2
      ⟨none, none, 5, 1⟩ (Or.inr rfl)⟩

/-- C6 counterexample: local identity 1; the backlog's chronologically
last entry is a `NewGame` authored by identity 2 ≠ 1, yet the role does
not become Player2: an earlier backlog entry — a `JoinGame` authored by
identity 3 whose Players record names the local identity as player 2 —
is forwarded first and assigns role 1 with `start = true`, so the final
`NewGame` is skipped by the `start` guard and `player_type` ends at 1. -/
theorem c6_counterexample :
    (runTicks ⟨Board.new, GameState.new 1 none, []⟩
        (setupForwarded 1
          [⟨3, some (NetworkMessage.JoinGame ⟨none, none, 3, 1⟩)⟩,
            ⟨2, some (NetworkMessage.NewGame none)⟩])).game.player_type = 1 ∧
    ¬ (runTicks ⟨Board.new, GameState.new 1 none, []⟩
        (setupForwarded 1
          [⟨3, some (NetworkMessage.JoinGame ⟨none, none, 3, 1⟩)⟩,
            ⟨2, some (NetworkMessage.NewGame none)⟩])).game.player_type = 2 := by
  decide

/-- C6 (amended): if the chronologically last backlog entry decodes as
`AnnounceNewGame` authored by X ≠ local, then setup enqueues exactly one
`AnnounceJoin` whose Players record has X as player 1 and the local
identity as player 2; and — provided no earlier backlog entry decodes as
a matchmaking message (`NewGame`/`JoinGame`), which could claim the role
first — processing the forwarded backlog ends with role Player2 and the
session started. -/
theorem c6_newgame_backlog (localPub X : Nat) (localName p : Option String)
    (pre : List NostrEvent) (hx : X ≠ localPub)
    (hpre : ∀ e ∈ pre, matchmakingMsg e.content = false) :
    setupOutbound localPub localName (pre ++ [⟨X, some (NetworkMessage.NewGame p)⟩]) =
      [NetworkMessage.JoinGame ⟨p, localName, X, localPub⟩] ∧
    (runTicks ⟨Board.new, GameState.new localPub localName, []⟩
        (setupForwarded localPub
          (pre ++ [⟨X, some (NetworkMessage.NewGame p)⟩]))).game.player_type = 2 ∧
    (runTicks ⟨Board.new, GameState.new localPub localName, []⟩
        (setupForwarded localPub
          (pre ++ [⟨X, some (NetworkMessage.NewGame p)⟩]))).game.start = true := by
  have hout : setupOutbound localPub localName
      (pre ++ [⟨X, some (NetworkMessage.NewGame p)⟩]) =
      [NetworkMessage.JoinGame ⟨p, localName, X, localPub⟩] := by
    unfold setupOutbound
    rw [List.getLast?_concat]
    cases localName with
    | none => simp [hx]
    | some a => simp [hx]
  have hfwd : setupForwarded localPub (pre ++ [⟨X, some (NetworkMessage.NewGame p)⟩]) =
      pre.map (fun e => e.content) ++ [some (NetworkMessage.NewGame p)] := by
    unfold setupForwarded
    rw [List.filter_append]
    have h1 : pre.filter (fun e =>
        !((isNewGameMsg e.content || isJoinGameMsg e.content) && (e.pubkey == localPub))) =
        pre := by
      rw [List.filter_eq_self]
      intro e he
      have hm := hpre e he
      simp only [matchmakingMsg] at hm
      simp [hm]
    have hbeq : (X == localPub) = false := by simp [hx]
    have h2 : List.filter (fun e =>
        !((isNewGameMsg e.content || isJoinGameMsg e.content) && (e.pubkey == localPub)))
        [(⟨X, some (NetworkMessage.NewGame p)⟩ : NostrEvent)] =
        [⟨X, some (NetworkMessage.NewGame p)⟩] := by
      simp [List.filter, isNewGameMsg, hbeq]
    rw [h1, h2, List.map_append]
    rfl
  have hg : (processInbound ⟨Board.new, GameState.new localPub localName, []⟩
      (pre.map fun e => e.content)).game = GameState.new localPub localName :=
    processInbound_game_eq _ _ (fun o ho => by
      obtain ⟨e, he, hoe⟩ := List.mem_map.mp ho
      rw [← hoe]
      exact hpre e he)
  have hrun : (runTicks ⟨Board.new, GameState.new localPub localName, []⟩
      (setupForwarded localPub (pre ++ [⟨X, some (NetworkMessage.NewGame p)⟩]))).game =
      ((handleRaw (processInbound ⟨Board.new, GameState.new localPub localName, []⟩
        (pre.map fun e => e.content)) (some (NetworkMessage.NewGame p))).1).game := by
    rw [runTicks_eq_processInbound, hfwd, processInbound_append]
    rfl
  have hfin : ((handleRaw (processInbound ⟨Board.new, GameState.new localPub localName, []⟩
      (pre.map fun e => e.content)) (some (NetworkMessage.NewGame p))).1).game.player_type = 2 ∧
      ((handleRaw (processInbound ⟨Board.new, GameState.new localPub localName, []⟩
        (pre.map fun e => e.content)) (some (NetworkMessage.NewGame p))).1).game.start = true := by
    simp only [handleRaw, handleMsg]
    rw [if_neg (by rw [hg]; simp [GameState.new])]
    exact ⟨rfl, rfl⟩
  exact ⟨hout, by rw [hrun]; exact hfin.1, by rw [hrun]; exact hfin.2⟩

/-- Witness for C6: local identity 1, backlog holding one non-matchmaking
entry (a stray `MoveInput` by identity 5) followed by a `NewGame` from
identity 2: setup enqueues the binding `JoinGame` and the role ends
Player2 with the session started. -/
theorem c6_witness :
    setupOutbound 1 none
        [⟨5, some (NetworkMessage.Input 0)⟩, ⟨2, some (NetworkMessage.NewGame none)⟩] =
      [NetworkMessage.JoinGame ⟨none, none, 2, 1⟩] ∧
    (runTicks ⟨Board.new, GameState.new 1 none, []⟩
        (setupForwarded 1
          [⟨5, some (NetworkMessage.Input 0)⟩,
            ⟨2, some (NetworkMessage.NewGame none)⟩])).game.player_type = 2 ∧
    (runTicks ⟨Board.new, GameState.new 1 none, []⟩
        (setupForwarded 1
          [⟨5, some (NetworkMessage.Input 0)⟩,
            ⟨2, some (NetworkMessage.NewGame none)⟩])).game.start = true :=
  c6_newgame_backlog 1 2 none none [⟨5, some (NetworkMessage.Input 0)⟩]
    (by decide) (by decide)

/-- C8 counterexample: in a started session with role 1 (local identity
1), an inbound `AnnounceJoin` naming two other identities (5 and 6)
overwrites the role to 3 ("not your game", src/nostr_plugin.rs 348-354):
that branch runs before the `start` guard, so the role is NOT left
unchanged by further matchmaking messages. -/
theorem c8_counterexample :
    ((handleMsg ⟨Board.new, ⟨1, true, none, 1, none⟩, []⟩
        (NetworkMessage.JoinGame ⟨none, none, 5, 6⟩)).1).game.player_type = 3 ∧
    ¬ ((handleMsg ⟨Board.new, ⟨1, true, none, 1, none⟩, []⟩
        (NetworkMessage.JoinGame ⟨none, none, 5, 6⟩)).1).game.player_type = 1 := by
  decide

/-- C8 (amended): once `start` is set, an inbound `AnnounceNewGame` and an
inbound `AnnounceJoin` that names the local identity both leave the role
unchanged (their assignments sit behind the `start` guard); but an
`AnnounceJoin` naming two foreign identities sets the role to 3 even in a
started session, because the "not your game" branch precedes the guard. -/
theorem c8_role_after_start (s : NetState) (hs : s.game.start = true) :
    (∀ p, ((handleMsg s (NetworkMessage.NewGame p)).1).game.player_type =
      s.game.player_type) ∧
    (∀ ps : Players,
      s.game.local_pub = ps.p1_pubkey ∨ s.game.local_pub = ps.p2_pubkey →
      ((handleMsg s (NetworkMessage.JoinGame ps)).1).game.player_type =
        s.game.player_type) ∧
    (∀ ps : Players, s.game.local_pub ≠ ps.p1_pubkey →
      s.game.local_pub ≠ ps.p2_pubkey →
      ((handleMsg s (NetworkMessage.JoinGame ps)).1).game.player_type = 3) := by
  refine ⟨?_, ?_, ?_⟩
  · intro p
    simp only [handleMsg]
    rw [if_pos hs]
  · intro ps hps
    have hcond : ¬(s.game.local_pub ≠ ps.p1_pubkey ∧ s.game.local_pub ≠ ps.p2_pubkey) := by
      rcases hps with h | h <;> simp [h]
    simp only [handleMsg]
    rw [if_neg hcond, if_pos hs]
  · intro ps h1 h2
    simp only [handleMsg]
    rw [if_pos ⟨h1, h2⟩]

/-- Witness for C8 in a started session (role 2, local identity 1): a
`NewGame` and a `JoinGame` naming the local identity leave the role at 2,
while a `JoinGame` naming identities 5 and 6 forces it to 3. -/
theorem c8_witness :
    ((handleMsg ⟨Board.new, ⟨2, true, none, 1, none⟩, []⟩
        (NetworkMessage.NewGame none)).1).game.player_type = 2 ∧
    ((handleMsg ⟨Board.new, ⟨2, true, none, 1, none⟩, []⟩
        (NetworkMessage.JoinGame ⟨none, none, 1, 9⟩)).1).game.player_type = 2 ∧
    ((handleMsg ⟨Board.new, ⟨2, true, none, 1, none⟩, []⟩
        (NetworkMessage.JoinGame ⟨none, none, 5, 6⟩)).1).game.player_type = 3 :=
  ⟨(c8_role_after_start ⟨Board.new, ⟨2, true, none, 1, none⟩, []⟩ rfl).1 none,
    (c8_role_after_start ⟨Board.new, ⟨2, true, none, 1, none⟩, []⟩ rfl).2.1
      ⟨none, none, 1, 9⟩ (Or.inl rfl),
    (c8_role_after_start ⟨Board.new, ⟨2, true, none, 1, none⟩, []⟩ rfl).2.2
      ⟨none, none, 5, 6⟩ (by decide) (by decide)⟩
